import Mathlib

/-!
# Verification of the jellyfin-expo download registry (`src/stores/DownloadStore.ts`)

A shallow embedding of the download store in Lean 4.

* The JavaScript `Map<string, DownloadModel>` is modelled as an association
  list (`DMap`) that keeps insertion order, exactly like a JS `Map`:
  `set` on a present key replaces the value in place, `set` on an absent key
  appends, `delete` removes the entry.
* The zustand store actions `add` / `delete` / `update` / `reset` are modelled
  as pure functions from the current state to the next state, together with a
  `didSet` flag recording whether the action invoked `_set` (in the real store
  `_set` is the sole trigger for the persistence flush and for observer
  notification) and the value the JavaScript function call evaluates to.
* The persistence adapter (`deserialize`, `storage.setItem`) is modelled in
  two layers: a typed layer over `SerializedDownload` records (the shape the
  storage schema declares) and a string layer with an explicit model of
  `JSON.parse` for the corrupt-input behaviour.

`DownloadModel` and `DownloadStatus` live outside the inspected sources
(`src/models/DownloadModel`, `src/features/downloads/constants/DownloadStatus`);
they are modelled from the specification where noted.
-/

/-- Modelled from the spec: `DownloadStatus` (not under `src/`).  §3 of the
spec: `status` is one of `Queued`, `Downloading`, `Complete`, `Failed`. -/
inductive DownloadStatus where
  | Queued
  | Downloading
  | Complete
  | Failed
deriving DecidableEq, Repr

/-- Modelled from the spec: the minimal remote-item descriptor stored on a
download (id, owning server id, display name); the display name is optional
(`Name: obj.title` may be `undefined` in the reconstruction path of
`deserialize`). -/
structure DownloadItem where
  Id : String
  ServerId : String
  Name : Option String
deriving DecidableEq, Repr

/-- Modelled from the spec: `DownloadModel` (not under `src/`).  §3 of the
spec lists the record fields; `extension` is optional, the other scalar
fields are strings or booleans. -/
structure DownloadModel where
  item : DownloadItem
  serverUrl : String
  apiKey : String
  filename : String
  downloadUrl : String
  status : DownloadStatus
  extension : Option String
  isNew : Bool
  canPlay : Bool
deriving DecidableEq, Repr

/-- Modelled from the spec: `key` is a stable identifier deterministically
derived from `(serverId, itemId)` (§3); the registry's dedup key. -/
def DownloadModel.key (m : DownloadModel) : String :=
  m.item.ServerId ++ "_" ++ m.item.Id

/-- Modelled from the spec: the `DownloadModel` constructor
`new DownloadModel(item, serverUrl, apiKey, filename, downloadUrl)` as used at
`DownloadStore.ts:79-85`.  §4.1: `Queued` is the initial state of the status
machine; §3: `canPlay` defaults to `true`, `isNew` is true until the user has
viewed the download. -/
def DownloadModel.make (item : DownloadItem) (serverUrl apiKey filename downloadUrl : String) :
    DownloadModel :=
  { item := item
    serverUrl := serverUrl
    apiKey := apiKey
    filename := filename
    downloadUrl := downloadUrl
    status := DownloadStatus.Queued
    extension := none
    isNew := true
    canPlay := true }

/-! ## The JavaScript `Map` (restricted to what the store uses)

A JS `Map` iterates in insertion order; `set` of an existing key keeps the
original position and replaces the value, `set` of a new key appends;
`delete` removes the entry and reports whether it was present. -/

/-- Insertion-ordered association list standing for
`Map<string, DownloadModel>`. -/
abbrev DMap := List (String × DownloadModel)

namespace JSMap

/-- `Map.prototype.has`. -/
def has (m : DMap) (k : String) : Bool :=
  m.any fun p => p.1 == k

/-- `Map.prototype.set`: replace in place when the key is present, append
otherwise. -/
def set (m : DMap) (k : String) (v : DownloadModel) : DMap :=
  if has m k then
    m.map fun p => if p.1 == k then (k, v) else p
  else
    m ++ [(k, v)]

/-- `Map.prototype.delete` (the resulting map; the returned boolean is
`has m k`). -/
def del (m : DMap) (k : String) : DMap :=
  m.filter fun p => p.1 != k

/-- `Map.prototype.get` as an `Option`. -/
def get (m : DMap) (k : String) : Option DownloadModel :=
  (m.find? fun p => p.1 == k).map Prod.snd

/-- `Map.prototype.size`. -/
def size (m : DMap) : Nat :=
  m.length

/-- The number of entries of `m` carrying key `k`; a real `Map` always has
at most one. -/
def countKey (m : DMap) (k : String) : Nat :=
  (m.filter fun p => p.1 == k).length

/-- Key uniqueness: the invariant every JS `Map` maintains by construction. -/
def keysNodup (m : DMap) : Prop :=
  (m.map Prod.fst).Nodup

instance (m : DMap) : Decidable (keysNodup m) := by
  unfold keysNodup; infer_instance

end JSMap

/-! ## The store state and actions (`DownloadStore.ts:144-174`) -/

/-- `type State = { downloads: Map<string, DownloadModel> }`. -/
structure State where
  downloads : DMap
deriving DecidableEq, Repr

/-- `const initialState: State = { downloads: new Map() }`. -/
def initialState : State :=
  { downloads := [] }

namespace DownloadStore

/-- Outcome of one store action: the state after the action, whether the
action called `_set` (which is what triggers the persistence flush and the
observer notification in the middleware chain), and the value the JavaScript
call evaluates to (`none` models `undefined`, i.e. a `void` return). -/
structure ActionResult (ρ : Type) where
  state : State
  didSet : Bool
  ret : ρ
deriving DecidableEq, Repr

/-- `add: (download) => { const downloads = _get().downloads;
if (!downloads.has(download.key)) { _set({ downloads: new Map(downloads).set(download.key, download) }); } }`
(`DownloadStore.ts:154-159`).  The arrow-function body has no `return`
statement and the `Actions` type declares `add: (download: DownloadModel) => void`,
so the call evaluates to `undefined`, modelled as `(none : Option Bool)`. -/
def add (download : DownloadModel) (s : State) : ActionResult (Option Bool) :=
  if JSMap.has s.downloads download.key then
    { state := s, didSet := false, ret := none }
  else
    { state := { downloads := JSMap.set s.downloads download.key download }
      didSet := true
      ret := none }

/-- `delete: (download) => { const downloads = new Map(_get().downloads);
const isDeleted = downloads.delete(download.key);
if (isDeleted) _set({ downloads }); return isDeleted; }`
(`DownloadStore.ts:160-168`). -/
def del (download : DownloadModel) (s : State) : ActionResult Bool :=
  let downloads := JSMap.del s.downloads download.key
  let isDeleted := JSMap.has s.downloads download.key
  if isDeleted then
    { state := { downloads := downloads }, didSet := true, ret := isDeleted }
  else
    { state := s, didSet := false, ret := isDeleted }

/-- `update: (download) => { const downloads = new Map(_get().downloads).set(download.key, download); _set({ downloads }); }`
(`DownloadStore.ts:169-173`). -/
def update (download : DownloadModel) (s : State) : ActionResult (Option Bool) :=
  { state := { downloads := JSMap.set s.downloads download.key download }
    didSet := true
    ret := none }

/-- `reset: () => _set({ downloads: new Map() })` (`DownloadStore.ts:174`). -/
def reset (s : State) : ActionResult (Option Bool) :=
  { state := { downloads := [] }, didSet := true, ret := none }

/-- `getNewDownloadCount: () => Array.from(_get().downloads.values()).filter(d => d.isNew).length`
(`DownloadStore.ts:150-153`). -/
def getNewDownloadCount (s : State) : Nat :=
  ((s.downloads.map Prod.snd).filter fun d => d.isNew).length

/-- Folding a whole sequence of `add` calls over a state. -/
def applyAdds (ds : List DownloadModel) (s : State) : State :=
  ds.foldl (fun st d => (add d st).state) s

end DownloadStore

/-! ## The persisted record shape (`DownloadStore.ts:33-48`) and the typed
decode layer (`DownloadStore.ts:60-105`) -/

/-- `interface SerializedDownload` (`DownloadStore.ts:33-48`): the shape of
one persisted record.  Optional fields are `Option`s (`none` models an
absent / `undefined` field). -/
structure SerializedDownload where
  item : Option DownloadItem
  itemId : Option String
  serverId : Option String
  serverUrl : String
  apiKey : String
  title : Option String
  filename : String
  extension : Option String
  downloadUrl : String
  isComplete : Option Bool
  isNew : Bool
  canPlay : Option Bool
  status : Option DownloadStatus
deriving DecidableEq, Repr

/-- JavaScript falsiness of an optional string: `!s` is `true` when the field
is absent (`undefined`) or the empty string. -/
def strFalsy : Option String → Bool
  | none => true
  | some s => s == ""

/-- The body of the `forEach` in `deserialize` (`DownloadStore.ts:61-105`)
for one `[key, obj]` pair.  `none` models the early `return` that skips an
invalid entry (the skip also emits a `console.error` diagnostic).  Notes on
JavaScript truthiness: `!obj.item` tests presence (a present item is an
object, always truthy); `!obj.itemId` / `!obj.serverId` are true for an
absent or empty string; `if (obj.status)` is true exactly when `status` is
present, because every `DownloadStatus` value is a non-empty string. -/
def decodeEntry : String × SerializedDownload → Option (String × DownloadModel)
  | (key, obj) =>
    if obj.item.isNone && (strFalsy obj.itemId || strFalsy obj.serverId) then
      none
    else
      let item : DownloadItem :=
        match obj.item with
        | some it => it
        | none => { Id := obj.itemId.getD "", ServerId := obj.serverId.getD "", Name := obj.title }
      let model := DownloadModel.make item obj.serverUrl obj.apiKey obj.filename obj.downloadUrl
      let model :=
        match obj.status with
        | some st =>
          -- Restore the status unless it was downloading, since resuming is not implemented.
          if st != DownloadStatus.Downloading then { model with status := st } else model
        | none =>
          -- Migrate legacy completed status.
          if obj.isComplete.getD false then { model with status := DownloadStatus.Complete } else model
      some (key,
        { model with
          canPlay := obj.canPlay.getD true
          extension := obj.extension
          isNew := obj.isNew })

/-- One iteration of the `forEach` loop: a decoded entry is `set` into the
map under construction, a skipped entry leaves it alone. -/
def decodeStep (m : DMap) (e : String × SerializedDownload) : DMap :=
  match decodeEntry e with
  | some (k, v) => JSMap.set m k v
  | none => m

/-- The whole `forEach` loop of `deserialize`: fold the entry sequence into a
fresh map, skipping invalid entries. -/
def decodeEntries (entries : List (String × SerializedDownload)) : DMap :=
  entries.foldl decodeStep []

/-- How many entries of the sequence are skipped (each skip emits one
`console.error` diagnostic). -/
def skippedCount (entries : List (String × SerializedDownload)) : Nat :=
  (entries.filter fun e => (decodeEntry e).isNone).length

/-- Modelled from the spec: the persisted form of an in-memory
`DownloadModel` as written by `storage.setItem` (`DownloadStore.ts:121-131`),
which JSON-encodes each model held in the map.  §6 of the spec lists the
record fields; `itemId`, `serverId`, `title` and the deprecated `isComplete`
are legacy-only fields that a current model does not carry, so a freshly
written record stores the full `item` descriptor and leaves the legacy
fields absent. -/
def serializeModel (m : DownloadModel) : SerializedDownload :=
  { item := some m.item
    itemId := none
    serverId := none
    serverUrl := m.serverUrl
    apiKey := m.apiKey
    title := none
    filename := m.filename
    extension := m.extension
    downloadUrl := m.downloadUrl
    isComplete := none
    isNew := m.isNew
    canPlay := some m.canPlay
    status := some m.status }

/-- `storage.setItem` flattens the keyed collection into the ordered sequence
of `(key, record)` pairs: `Array.from(state.downloads.entries())`
(`DownloadStore.ts:121-131`). -/
def setItemEntries (s : State) : List (String × SerializedDownload) :=
  s.downloads.map fun p => (p.1, serializeModel p.2)

/-- The status a record comes back with after one persist / load cycle:
`Downloading` is downgraded to `Queued`, everything else survives. -/
def rehydratedStatus (st : DownloadStatus) : DownloadStatus :=
  if st = DownloadStatus.Downloading then DownloadStatus.Queued else st

/-- One persist / load cycle applied to a single record. -/
def rehydrateModel (m : DownloadModel) : DownloadModel :=
  { m with status := rehydratedStatus m.status }

/-! ## Heap view of the mutating actions (for the copy-on-write discipline)

The value-level actions above ignore object identity.  To state that a
mutation never touches the `Map` instance held by the previous state, the
actions are replayed over an explicit heap of `Map` instances:
`new Map(...)` allocates a fresh instance (appended at the end of the heap),
`Map.prototype.set` / `delete` mutate the instance they are called on, and
`_set` repoints the state at an instance.  Each action below performs
exactly the allocations and mutations its source line performs. -/

/-- A heap of `Map` instances together with the index of the instance the
current zustand state holds in its `downloads` field. -/
structure HeapState where
  heap : List DMap
  cur : Nat
deriving Repr

/-- The map instance the current state points at. -/
def HeapState.current (s : HeapState) : DMap :=
  s.heap.getD s.cur []

namespace DownloadStore

/-- Heap view of `add`: when the key is absent, `new Map(downloads)`
allocates a fresh copy, `.set` mutates only that fresh copy, and `_set`
installs it; when the key is present nothing is allocated or mutated. -/
def addH (d : DownloadModel) (s : HeapState) : HeapState :=
  if JSMap.has s.current d.key then s
  else { heap := s.heap ++ [JSMap.set s.current d.key d], cur := s.heap.length }

/-- Heap view of `delete`: `new Map(_get().downloads)` always allocates a
fresh copy and `.delete` mutates only that copy; `_set` installs the copy
only when the key was present. -/
def delH (d : DownloadModel) (s : HeapState) : HeapState :=
  if JSMap.has s.current d.key then
    { heap := s.heap ++ [JSMap.del s.current d.key], cur := s.heap.length }
  else
    { heap := s.heap ++ [JSMap.del s.current d.key], cur := s.cur }

/-- Heap view of `update`: allocate a fresh copy, `.set` it, install it. -/
def updateH (d : DownloadModel) (s : HeapState) : HeapState :=
  { heap := s.heap ++ [JSMap.set s.current d.key d], cur := s.heap.length }

/-- Heap view of `reset`: allocate a fresh empty map and install it. -/
def resetH (s : HeapState) : HeapState :=
  { heap := s.heap ++ [[]], cur := s.heap.length }

end DownloadStore

/-! ## `JSON.parse` and the string layer of `deserialize`
(`DownloadStore.ts:52-58` and `107-113`)

`JSON.parse` is a platform primitive; it is modelled by an executable
recursive-descent parser over the character list of the input.  The parser
follows the JSON grammar (values `null` / `true` / `false`, strings with the
standard escapes, numbers, arrays, objects); numbers keep their raw textual
form, since no persisted download field is numeric. -/

/-- A parsed JSON value. -/
inductive Json where
  | null
  | bool (b : Bool)
  | num (raw : String)
  | str (s : String)
  | arr (elems : List Json)
  | obj (fields : List (String × Json))

/-- The opening brace character, `\x7b`. -/
def braceOpen : Char := '\x7b'

/-- The closing brace character, `\x7d`. -/
def braceClose : Char := '\x7d'

/-- Drop leading JSON whitespace. -/
def skipWs : List Char → List Char
  | c :: cs => if c = ' ' ∨ c = '\t' ∨ c = '\n' ∨ c = '\r' then skipWs cs else c :: cs
  | [] => []

/-- Whether a character is a hexadecimal digit. -/
def isHexDigitC (c : Char) : Bool :=
  c.isDigit || decide ('a' ≤ c ∧ c ≤ 'f') || decide ('A' ≤ c ∧ c ≤ 'F')

/-- Value of one hexadecimal digit. -/
def hexVal (c : Char) : Nat :=
  if c.isDigit then c.toNat - 48
  else if 'a' ≤ c ∧ c ≤ 'f' then c.toNat - 87
  else c.toNat - 55

/-- Parse the body of a JSON string (the opening quote already consumed),
returning the decoded string and the remaining input. -/
def parseStringBody (cs : List Char) : Option (String × List Char) :=
  match cs with
  | [] => none
  | c :: rest =>
    if c = '"' then some ("", rest)
    else if c = '\\' then
      match rest with
      | [] => none
      | e :: rest2 =>
        if e = 'u' then
          match rest2 with
          | h1 :: h2 :: h3 :: h4 :: rest3 =>
            if isHexDigitC h1 && isHexDigitC h2 && isHexDigitC h3 && isHexDigitC h4 then
              match parseStringBody rest3 with
              | some (s, r) =>
                some (⟨Char.ofNat (((hexVal h1 * 16 + hexVal h2) * 16 + hexVal h3) * 16 + hexVal h4) :: s.data⟩, r)
              | none => none
            else none
          | _ => none
        else
          let esc : Option Char :=
            if e = '"' then some '"'
            else if e = '\\' then some '\\'
            else if e = '/' then some '/'
            else if e = 'b' then some '\x08'
            else if e = 'f' then some '\x0c'
            else if e = 'n' then some '\n'
            else if e = 'r' then some '\r'
            else if e = 't' then some '\t'
            else none
          match esc with
          | some ch =>
            match parseStringBody rest2 with
            | some (s, r) => some (⟨ch :: s.data⟩, r)
            | none => none
          | none => none
    else
      match parseStringBody rest with
      | some (s, r) => some (⟨c :: s.data⟩, r)
      | none => none
termination_by cs.length
decreasing_by all_goals simp_wf <;> omega

/-- Take the longest prefix of decimal digits. -/
def spanDigits : List Char → List Char × List Char
  | [] => ([], [])
  | c :: cs =>
    if c.isDigit then
      let r := spanDigits cs
      (c :: r.1, r.2)
    else ([], c :: cs)

/-- Parse a JSON number (raw text), following the grammar
`-? int frac? exp?` with `int = 0 | [1-9][0-9]*`. -/
def parseNumberRaw (cs : List Char) : Option (List Char × List Char) :=
  let (sign, cs1) :=
    match cs with
    | '-' :: rest => (['-'], rest)
    | _ => ([], cs)
  match cs1 with
  | [] => none
  | d :: _ =>
    if !d.isDigit then none
    else
      let (intPart, cs2) := spanDigits cs1
      -- JSON forbids leading zeros: "0" is fine, "01" is not.
      if intPart.length > 1 ∧ intPart.headD '0' = '0' then none
      else
        let (fracPart, cs3) :=
          match cs2 with
          | '.' :: rest =>
            let r := spanDigits rest
            if r.1 = [] then ([], '.' :: rest) else ('.' :: r.1, r.2)
          | _ => ([], cs2)
        if fracPart = [] ∧ (cs2.headD ' ') = '.' then none
        else
          let (expPart, cs4) :=
            match cs3 with
            | e :: rest =>
              if e = 'e' ∨ e = 'E' then
                let (sgn, rest2) :=
                  match rest with
                  | s :: r2 => if s = '+' ∨ s = '-' then ([s], r2) else ([], rest)
                  | [] => ([], rest)
                let r := spanDigits rest2
                if r.1 = [] then ([], e :: rest) else (e :: (sgn ++ r.1), r.2)
              else ([], e :: rest)
            | [] => ([], [])
          let expStarts : Bool :=
            match cs3 with
            | e :: _ => decide (e = 'e' ∨ e = 'E')
            | [] => false
          if expPart = [] ∧ expStarts = true then none
          else some (sign ++ intPart ++ fracPart ++ expPart, cs4)

mutual

/-- Parse one JSON value (fuelled recursive descent). -/
def parseVal (fuel : Nat) (cs : List Char) : Option (Json × List Char) :=
  match fuel with
  | 0 => none
  | fuel + 1 =>
    match skipWs cs with
    | 'n' :: 'u' :: 'l' :: 'l' :: rest => some (Json.null, rest)
    | 't' :: 'r' :: 'u' :: 'e' :: rest => some (Json.bool true, rest)
    | 'f' :: 'a' :: 'l' :: 's' :: 'e' :: rest => some (Json.bool false, rest)
    | '"' :: rest =>
      match parseStringBody rest with
      | some (s, r) => some (Json.str s, r)
      | none => none
    | '[' :: rest =>
      match skipWs rest with
      | ']' :: rest2 => some (Json.arr [], rest2)
      | rest2 =>
        match parseElems fuel rest2 with
        | some (vs, r) => some (Json.arr vs, r)
        | none => none
    | c :: rest =>
      if c = braceOpen then
        match skipWs rest with
        | c2 :: rest2 =>
          if c2 = braceClose then some (Json.obj [], rest2)
          else
            match parseFields fuel (c2 :: rest2) with
            | some (fs, r) => some (Json.obj fs, r)
            | none => none
        | [] => none
      else if c.isDigit ∨ c = '-' then
        match parseNumberRaw (c :: rest) with
        | some (raw, r) => some (Json.num ⟨raw⟩, r)
        | none => none
      else none
    | [] => none

/-- Parse the comma-separated elements of a non-empty JSON array, up to and
including the closing bracket. -/
def parseElems (fuel : Nat) (cs : List Char) : Option (List Json × List Char) :=
  match fuel with
  | 0 => none
  | fuel + 1 =>
    match parseVal fuel cs with
    | none => none
    | some (v, rest) =>
      match skipWs rest with
      | ',' :: rest2 =>
        match parseElems fuel rest2 with
        | some (vs, r) => some (v :: vs, r)
        | none => none
      | ']' :: rest2 => some ([v], rest2)
      | _ => none

/-- Parse the members of a non-empty JSON object, up to and including the
closing brace. -/
def parseFields (fuel : Nat) (cs : List Char) : Option (List (String × Json) × List Char) :=
  match fuel with
  | 0 => none
  | fuel + 1 =>
    match skipWs cs with
    | '"' :: rest =>
      match parseStringBody rest with
      | none => none
      | some (key, rest2) =>
        match skipWs rest2 with
        | ':' :: rest3 =>
          match parseVal fuel rest3 with
          | none => none
          | some (v, rest4) =>
            match skipWs rest4 with
            | ',' :: rest5 =>
              match parseFields fuel rest5 with
              | some (fs, r) => some ((key, v) :: fs, r)
              | none => none
            | c :: rest5 =>
              if c = braceClose then some ([(key, v)], rest5) else none
            | [] => none
        | _ => none
    | _ => none

end

namespace Json

/-- `JSON.parse`: parse the whole input, requiring only trailing whitespace
after the value; `none` models the thrown `SyntaxError`. -/
def parse (s : String) : Option Json :=
  match parseVal (2 * s.data.length + 2) s.data with
  | some (v, rest) => if skipWs rest = [] then some v else none
  | none => none

end Json

/-- JavaScript property access `j.name`: a member of an object, `undefined`
(`none`) otherwise.  (Accessing a property of `null` or `undefined` is the
one case that throws; `deserialize` below models it as `typeError`.) -/
def jmember : Json → String → Option Json
  | Json.obj fields, name => (fields.find? fun p => p.1 == name).map Prod.snd
  | _, _ => none

/-- Read an optional string-typed field. -/
def jString? : Option Json → Option String
  | some (Json.str s) => some s
  | _ => none

/-- Read an optional boolean-typed field. -/
def jBool? : Option Json → Option Bool
  | some (Json.bool b) => some b
  | _ => none

/-- Read an optional `DownloadStatus` field (persisted as one of the four
enum strings). -/
def jStatus? : Option Json → Option DownloadStatus
  | some (Json.str s) =>
    if s = "Queued" then some DownloadStatus.Queued
    else if s = "Downloading" then some DownloadStatus.Downloading
    else if s = "Complete" then some DownloadStatus.Complete
    else if s = "Failed" then some DownloadStatus.Failed
    else none
  | _ => none

/-- Read an optional `item` descriptor object. -/
def jItem? : Option Json → Option DownloadItem
  | some (Json.obj fields) =>
    some
      { Id := (jString? (jmember (Json.obj fields) "Id")).getD ""
        ServerId := (jString? (jmember (Json.obj fields) "ServerId")).getD ""
        Name := jString? (jmember (Json.obj fields) "Name") }
  | _ => none

/-- One persisted `[key, record]` pair of the storage schema (§6 of the
spec) read into the typed `SerializedDownload` shape; entries or fields not
conforming to the schema are treated as absent. -/
def jsonToEntry : Json → Option (String × SerializedDownload)
  | Json.arr [Json.str key, o] =>
    some (key,
      { item := jItem? (jmember o "item")
        itemId := jString? (jmember o "itemId")
        serverId := jString? (jmember o "serverId")
        serverUrl := (jString? (jmember o "serverUrl")).getD ""
        apiKey := (jString? (jmember o "apiKey")).getD ""
        title := jString? (jmember o "title")
        filename := (jString? (jmember o "filename")).getD ""
        extension := jString? (jmember o "extension")
        downloadUrl := (jString? (jmember o "downloadUrl")).getD ""
        isComplete := jBool? (jmember o "isComplete")
        isNew := (jBool? (jmember o "isNew")).getD false
        canPlay := jBool? (jmember o "canPlay")
        status := jStatus? (jmember o "status") })
  | _ => none

/-- The signal raised by the body of `deserialize`: `parseError` is the
`SyntaxError` thrown by `JSON.parse`, `typeError` the `TypeError` thrown by
reading a property of `null` or `undefined`. -/
inductive JsError where
  | parseError
  | typeError
deriving DecidableEq, Repr

/-- The value `deserialize` returns: the rebuilt `State` plus the other
top-level field (`version`) that the object spread `{ ...value }` carries
through. -/
structure StorageValue where
  state : State
  version : Option Json

/-- `deserialize` (`DownloadStore.ts:52-113`) from the raw stored string.
`valueString` is `null` (`none`) or the stored text.  `if (!valueString)`
returns the initial state for `null` and for the empty string (the two falsy
cases); otherwise `JSON.parse` runs with no surrounding try/catch, so an
unparseable input throws (modelled `Except.error`).  After a successful
parse, `value.state.downloads` is read (throwing `TypeError` when `value` or
`value.state` is `null`/`undefined`), `Array.isArray` gates the `forEach`,
and the entry loop is the typed `decodeEntries` above. -/
def deserialize (valueString : Option String) : Except JsError StorageValue :=
  match valueString with
  | none => Except.ok { state := initialState, version := none }
  | some s =>
    if s = "" then Except.ok { state := initialState, version := none }
    else
      match Json.parse s with
      | none => Except.error JsError.parseError
      | some value =>
        match value with
        | Json.null => Except.error JsError.typeError
        | _ =>
          match jmember value "state" with
          | none => Except.error JsError.typeError
          | some Json.null => Except.error JsError.typeError
          | some stateJson =>
            let entries :=
              match jmember stateJson "downloads" with
              | some (Json.arr xs) => xs
              | _ => []
            Except.ok
              { state := { downloads := decodeEntries (entries.filterMap jsonToEntry) }
                version := jmember value "version" }


/-! ## Concrete example data used by witnesses and counterexamples -/

/-- A concrete remote item. -/
def exItem : DownloadItem :=
  { Id := "item1", ServerId := "srv1", Name := some "Movie" }

/-- A second remote item with a different dedup key. -/
def exItem2 : DownloadItem :=
  { Id := "item2", ServerId := "srv1", Name := none }

/-- A concrete freshly created download. -/
def exModel : DownloadModel :=
  DownloadModel.make exItem "https://example.com" "apikey" "movie.mp4" "https://example.com/dl1"

/-- A second concrete download with a different key. -/
def exModel2 : DownloadModel :=
  DownloadModel.make exItem2 "https://example.com" "apikey" "ep.mkv" "https://example.com/dl2"

/-- `exModel` caught mid-transfer. -/
def exModelDownloading : DownloadModel :=
  { exModel with status := DownloadStatus.Downloading }

/-- A registry holding exactly `exModel`. -/
def exState : State :=
  { downloads := [(exModel.key, exModel)] }

/-- A legacy persisted entry: no full `item`, only `(itemId, serverId)`, a
deprecated `isComplete: true` and no `status` / `canPlay`. -/
def exSerializedLegacy : SerializedDownload :=
  { item := none
    itemId := some "item9"
    serverId := some "srv9"
    serverUrl := "u"
    apiKey := "a"
    title := some "Old"
    filename := "f"
    extension := none
    downloadUrl := "d"
    isComplete := some true
    isNew := false
    canPlay := none
    status := none }

/-- The record the legacy entry decodes to. -/
def exLegacyDecoded : DownloadModel :=
  { item := { Id := "item9", ServerId := "srv9", Name := some "Old" }
    serverUrl := "u"
    apiKey := "a"
    filename := "f"
    downloadUrl := "d"
    status := DownloadStatus.Complete
    extension := none
    isNew := false
    canPlay := true }

/-- An invalid persisted entry: neither a full `item` nor the minimal
`(itemId, serverId)` pair. -/
def exSerializedBad : SerializedDownload :=
  { item := none
    itemId := none
    serverId := some "srv9"
    serverUrl := "u"
    apiKey := "a"
    title := none
    filename := "f"
    extension := none
    downloadUrl := "d"
    isComplete := none
    isNew := true
    canPlay := none
    status := none }

/-- A one-instance heap whose state points at a map holding `exModel`. -/
def exHeapState : HeapState :=
  { heap := [[(exModel.key, exModel)]], cur := 0 }


/-! ## Basic facts about the map model -/

namespace JSMap

theorem has_eq_true_iff (m : DMap) (k : String) :
    has m k = true ↔ ∃ p ∈ m, p.1 = k := by
  simp [has]

theorem has_eq_false_iff (m : DMap) (k : String) :
    has m k = false ↔ ∀ p ∈ m, p.1 ≠ k := by
  simp [has]

theorem has_del_self (m : DMap) (k : String) : has (del m k) k = false := by
  rw [has_eq_false_iff]
  intro p hp
  have hmem := List.mem_filter.mp hp
  simpa using hmem.2

theorem map_fst_set_of_has {m : DMap} {k : String} (v : DownloadModel)
    (h : has m k = true) :
    (set m k v).map Prod.fst = m.map Prod.fst := by
  simp only [set, h, if_true]
  rw [List.map_map]
  apply List.map_congr_left
  intro p _
  by_cases hpk : p.1 = k
  · simp [Function.comp, hpk]
  · simp [Function.comp, hpk]

theorem keysNodup_set {m : DMap} (k : String) (v : DownloadModel)
    (h : keysNodup m) : keysNodup (set m k v) := by
  by_cases hk : has m k = true
  · unfold keysNodup
    rw [map_fst_set_of_has v hk]
    exact h
  · have hk' : has m k = false := by
      revert hk; cases has m k <;> simp
    unfold keysNodup set
    rw [hk']
    simp only [Bool.false_eq_true, if_false, List.map_append, List.map_cons, List.map_nil]
    rw [List.nodup_append]
    refine ⟨h, List.nodup_singleton k, ?_⟩
    intro a ha hb
    rcases List.mem_map.mp ha with ⟨p, hp, rfl⟩
    have := (has_eq_false_iff m k).mp hk' p hp
    simp at hb
    exact this hb

theorem countKey_eq_count (m : DMap) (k : String) :
    countKey m k = (m.map Prod.fst).count k := by
  unfold countKey
  rw [List.count_eq_countP, ← List.countP_eq_length_filter, List.countP_map]
  apply List.countP_congr
  intro p _
  simp only [Function.comp_apply, beq_iff_eq]

theorem countKey_le_one {m : DMap} (h : keysNodup m) (k : String) :
    countKey m k ≤ 1 := by
  rw [countKey_eq_count]
  exact List.nodup_iff_count_le_one.mp h k

end JSMap

namespace DownloadStore

theorem add_preserves_keysNodup (d : DownloadModel) (s : State)
    (h : JSMap.keysNodup s.downloads) :
    JSMap.keysNodup (add d s).state.downloads := by
  unfold add
  by_cases hk : JSMap.has s.downloads d.key = true
  · simp [hk, h]
  · have hk' : JSMap.has s.downloads d.key = false := by
      revert hk; cases JSMap.has s.downloads d.key <;> simp
    simp only [hk', Bool.false_eq_true, if_false]
    exact JSMap.keysNodup_set d.key d h

theorem applyAdds_preserves_keysNodup (ds : List DownloadModel) (s : State)
    (h : JSMap.keysNodup s.downloads) :
    JSMap.keysNodup (applyAdds ds s).downloads := by
  induction ds generalizing s with
  | nil => exact h
  | cons d ds ih =>
    exact ih (add d s).state (add_preserves_keysNodup d s h)

end DownloadStore

/-! ## C1 -/

/-- C1: for every registry state (with the key uniqueness every JS `Map`
maintains) and every sequence of `add` calls, the registry keeps at most one
record per key, and an `add` whose key is already present leaves the state
unchanged — a no-op, never an overwrite, so the size is unchanged and the
existing record is kept. -/
theorem c1_key_uniqueness (s : State) (ds : List DownloadModel) (d : DownloadModel)
    (hs : JSMap.keysNodup s.downloads) :
    (∀ k, JSMap.countKey (DownloadStore.applyAdds ds s).downloads k ≤ 1) ∧
    (JSMap.has s.downloads d.key = true → (DownloadStore.add d s).state = s) := by
  constructor
  · intro k
    exact JSMap.countKey_le_one (DownloadStore.applyAdds_preserves_keysNodup ds s hs) k
  · intro h
    simp [DownloadStore.add, h]

/-- Witness for C1 at a concrete state and add sequence. -/
theorem c1_key_uniqueness_witness :
    (∀ k, JSMap.countKey (DownloadStore.applyAdds [exModel, exModel, exModel2] exState).downloads k ≤ 1) ∧
    (JSMap.has exState.downloads exModel.key = true →
      (DownloadStore.add exModel exState).state = exState) :=
  c1_key_uniqueness exState [exModel, exModel, exModel2] exModel (by decide)

/-! ## C5 -/

/-- C5 counterexample: `add` never returns a boolean.  With an empty registry
and a fresh download the key is absent, yet the call evaluates to `undefined`
(modelled `none`), not `true`: the `Actions` type declares
`add: (download: DownloadModel) => void` and the arrow-function body has no
`return` statement. -/
theorem c5_add_returns_void_counterexample :
    JSMap.has initialState.downloads exModel.key = false ∧
    (DownloadStore.add exModel initialState).ret = none ∧
    (DownloadStore.add exModel initialState).ret ≠ some true := by
  decide

/-- C5 amended: `add` returns no value (`void`); the insertion itself still
happens exactly when the key was absent, and an `add` on an existing key is a
silent no-op (only `delete` reports a boolean). -/
theorem c5_add_void_and_inserts_iff_absent (d : DownloadModel) (s : State) :
    (DownloadStore.add d s).ret = none ∧
    (DownloadStore.add d s).didSet = !JSMap.has s.downloads d.key ∧
    (JSMap.has s.downloads d.key = false →
      (DownloadStore.add d s).state.downloads = JSMap.set s.downloads d.key d) ∧
    (JSMap.has s.downloads d.key = true → (DownloadStore.add d s).state = s) := by
  cases hh : JSMap.has s.downloads d.key <;> simp [DownloadStore.add, hh]

/-- Witness for the amended C5 at a concrete input. -/
theorem c5_add_void_and_inserts_iff_absent_witness :
    (DownloadStore.add exModel2 exState).ret = none ∧
    (DownloadStore.add exModel2 exState).state.downloads =
      JSMap.set exState.downloads exModel2.key exModel2 := by
  have h := c5_add_void_and_inserts_iff_absent exModel2 exState
  exact ⟨h.1, h.2.2.1 (by decide)⟩

/-! ## C6 -/

/-- C6: deleting a present key returns `true` and removes the record; an
immediately repeated delete of the same key returns `false` and changes
nothing; deleting a key that was never present returns `false` and leaves the
collection unchanged (not an error). -/
theorem c6_idempotent_delete (d : DownloadModel) (s : State) :
    (JSMap.has s.downloads d.key = true →
      (DownloadStore.del d s).ret = true ∧
      JSMap.has (DownloadStore.del d s).state.downloads d.key = false ∧
      (DownloadStore.del d (DownloadStore.del d s).state).ret = false ∧
      (DownloadStore.del d (DownloadStore.del d s).state).state = (DownloadStore.del d s).state) ∧
    (JSMap.has s.downloads d.key = false →
      (DownloadStore.del d s).ret = false ∧ (DownloadStore.del d s).state = s) := by
  constructor <;> intro h <;>
    simp [DownloadStore.del, h, JSMap.has_del_self]

/-- Witness for C6: delete `exModel` twice from a registry holding it, and
delete the never-present `exModel2`. -/
theorem c6_idempotent_delete_witness :
    ((DownloadStore.del exModel exState).ret = true ∧
      (DownloadStore.del exModel (DownloadStore.del exModel exState).state).ret = false) ∧
    ((DownloadStore.del exModel2 exState).ret = false ∧
      (DownloadStore.del exModel2 exState).state = exState) := by
  have h1 := (c6_idempotent_delete exModel exState).1 (by decide)
  have h2 := (c6_idempotent_delete exModel2 exState).2 (by decide)
  exact ⟨⟨h1.1, h1.2.2.1⟩, h2⟩

/-! ## C9 -/

/-- C9: the two no-op mutations — `add` on a present key and `delete` on an
absent key — never call `_set`: no new state value is installed (the state is
unchanged in every field), so neither a persistence flush nor an observer
notification is triggered. -/
theorem c9_noop_mutations_do_not_set (d : DownloadModel) (s : State) :
    (JSMap.has s.downloads d.key = true →
      (DownloadStore.add d s).state = s ∧ (DownloadStore.add d s).didSet = false) ∧
    (JSMap.has s.downloads d.key = false →
      (DownloadStore.del d s).state = s ∧ (DownloadStore.del d s).didSet = false) := by
  constructor <;> intro h <;> simp [DownloadStore.add, DownloadStore.del, h]

/-- Witness for C9 at concrete inputs: `exModel` is present in `exState`,
`exModel2` is not. -/
theorem c9_noop_mutations_do_not_set_witness :
    ((DownloadStore.add exModel exState).state = exState ∧
      (DownloadStore.add exModel exState).didSet = false) ∧
    ((DownloadStore.del exModel2 exState).state = exState ∧
      (DownloadStore.del exModel2 exState).didSet = false) := by
  have h1 := (c9_noop_mutations_do_not_set exModel exState).1 (by decide)
  have h2 := (c9_noop_mutations_do_not_set exModel2 exState).2 (by decide)
  exact ⟨h1, h2⟩

namespace JSMap

theorem has_append (m1 m2 : DMap) (k : String) :
    has (m1 ++ m2) k = (has m1 k || has m2 k) :=
  List.any_append

theorem has_set_self (m : DMap) (k : String) (v : DownloadModel) :
    has (set m k v) k = true := by
  unfold set
  by_cases h : has m k = true
  · rw [if_pos h]
    rcases (has_eq_true_iff m k).mp h with ⟨p, hp, hpk⟩
    rw [has_eq_true_iff]
    exact ⟨(k, v), List.mem_map.mpr ⟨p, hp, by simp [hpk]⟩, rfl⟩
  · rw [if_neg h]
    rw [has_eq_true_iff]
    exact ⟨(k, v), by simp, rfl⟩

theorem has_set_mono (m : DMap) (k k' : String) (v : DownloadModel)
    (h : has m k' = true) : has (set m k v) k' = true := by
  unfold set
  rcases (has_eq_true_iff m k').mp h with ⟨p, hp, hpk⟩
  by_cases hk : has m k = true
  · rw [if_pos hk, has_eq_true_iff]
    refine ⟨if p.1 == k then (k, v) else p, List.mem_map.mpr ⟨p, hp, rfl⟩, ?_⟩
    by_cases hpk2 : p.1 = k
    · simp [hpk2, ← hpk, hpk2]
    · have hne : k' ≠ k := fun hc => hpk2 (by rw [hpk, hc])
      simp [hpk2, hpk, hne]
  · rw [if_neg hk, has_eq_true_iff]
    exact ⟨p, List.mem_append_left _ hp, hpk⟩

end JSMap

/-! ## C3 -/

/-- C3: for every serialized entry that `deserialize` accepts, a persisted
status `Downloading` yields a record with status `Queued`; no persisted
status together with the legacy `isComplete: true` yields `Complete`; any
other persisted status is restored unchanged. -/
theorem c3_rehydration_downgrade (k k' : String) (obj : SerializedDownload)
    (m : DownloadModel) (h : decodeEntry (k, obj) = some (k', m)) :
    (obj.status = some DownloadStatus.Downloading → m.status = DownloadStatus.Queued) ∧
    (obj.status = none → obj.isComplete = some true → m.status = DownloadStatus.Complete) ∧
    (∀ st, obj.status = some st → st ≠ DownloadStatus.Downloading → m.status = st) := by
  rw [decodeEntry] at h
  by_cases hg : (obj.item.isNone && (strFalsy obj.itemId || strFalsy obj.serverId)) = true
  · rw [if_pos hg] at h
    cases h
  · rw [if_neg hg] at h
    simp only [Option.some.injEq, Prod.mk.injEq] at h
    obtain ⟨-, hm⟩ := h
    subst hm
    refine ⟨?_, ?_, ?_⟩
    · intro hst
      simp [hst, DownloadModel.make]
    · intro hst hic
      simp [hst, hic, DownloadModel.make]
    · intro st hst hne
      simp [hst, hne, DownloadModel.make]

/-- Witness for C3: the mid-transfer record comes back `Queued`, the legacy
completed record comes back `Complete`. -/
theorem c3_rehydration_downgrade_witness :
    (rehydrateModel exModelDownloading).status = DownloadStatus.Queued ∧
    exLegacyDecoded.status = DownloadStatus.Complete := by
  have h1 := c3_rehydration_downgrade "k1" "k1" (serializeModel exModelDownloading)
    (rehydrateModel exModelDownloading) (by decide)
  have h2 := c3_rehydration_downgrade "k2" "k2" exSerializedLegacy exLegacyDecoded (by decide)
  exact ⟨h1.1 (by decide), h2.2.1 (by decide) (by decide)⟩

/-! ## C8 -/

/-- C8: a record accepted by `deserialize` carries the persisted `canPlay`
boolean when one is present, and `canPlay = true` when the field is absent
(pre-flag records are assumed playable). -/
theorem c8_canPlay_default (k k' : String) (obj : SerializedDownload)
    (m : DownloadModel) (h : decodeEntry (k, obj) = some (k', m)) :
    (∀ b, obj.canPlay = some b → m.canPlay = b) ∧
    (obj.canPlay = none → m.canPlay = true) := by
  rw [decodeEntry] at h
  by_cases hg : (obj.item.isNone && (strFalsy obj.itemId || strFalsy obj.serverId)) = true
  · rw [if_pos hg] at h
    cases h
  · rw [if_neg hg] at h
    simp only [Option.some.injEq, Prod.mk.injEq] at h
    obtain ⟨-, hm⟩ := h
    subst hm
    constructor
    · intro b hcp
      simp [hcp]
    · intro hcp
      simp [hcp]

/-- Witness for C8: a persisted `canPlay: false` is restored as `false`, an
absent `canPlay` defaults to `true`. -/
theorem c8_canPlay_default_witness :
    ({ exModel with canPlay := false } : DownloadModel).canPlay = false ∧
    exLegacyDecoded.canPlay = true := by
  have h1 := c8_canPlay_default "k1" "k1"
    { serializeModel exModel with canPlay := some false }
    { exModel with canPlay := false } (by decide)
  have h2 := c8_canPlay_default "k2" "k2" exSerializedLegacy exLegacyDecoded (by decide)
  exact ⟨h1.1 false (by decide), h2.2 (by decide)⟩

/-! ## C7 -/

/-- The fold of `decodeEntries` keeps every key it has already placed and
places the key of every entry that decodes. -/
theorem decodeFold_has (entries : List (String × SerializedDownload)) (acc : DMap)
    (k' : String)
    (h : JSMap.has acc k' = true ∨ ∃ e ∈ entries, ∃ m, decodeEntry e = some (k', m)) :
    JSMap.has (entries.foldl decodeStep acc) k' = true := by
  induction entries generalizing acc with
  | nil =>
    rcases h with h | ⟨e, he, _⟩
    · exact h
    · cases he
  | cons e es ih =>
    rw [List.foldl_cons]
    apply ih
    rcases h with h | ⟨e2, he2, m2, hm2⟩
    · left
      unfold decodeStep
      cases hde : decodeEntry e with
      | none => exact h
      | some kv => exact JSMap.has_set_mono acc kv.1 k' kv.2 h
    · rcases List.mem_cons.mp he2 with rfl | he2'
      · left
        unfold decodeStep
        rw [hm2]
        exact JSMap.has_set_self acc k' m2
      · exact Or.inr ⟨e2, he2', m2, hm2⟩

/-- C7: an entry with neither the full `item` descriptor nor the minimal
`(itemId, serverId)` pair is skipped — it decodes to nothing, contributes
one diagnostic, and removing it from the sequence does not change the decoded
map — while every sibling entry that decodes is still loaded. -/
theorem c7_invalid_entry_isolation (pre post : List (String × SerializedDownload))
    (k : String) (bad : SerializedDownload)
    (hbad : bad.item = none ∧ (strFalsy bad.itemId = true ∨ strFalsy bad.serverId = true)) :
    decodeEntry (k, bad) = none ∧
    decodeEntries (pre ++ (k, bad) :: post) = decodeEntries (pre ++ post) ∧
    skippedCount (pre ++ (k, bad) :: post) = skippedCount (pre ++ post) + 1 ∧
    (∀ e ∈ pre ++ post, ∀ k' m, decodeEntry e = some (k', m) →
      JSMap.has (decodeEntries (pre ++ (k, bad) :: post)) k' = true) := by
  obtain ⟨hi, hf⟩ := hbad
  have h1 : decodeEntry (k, bad) = none := by
    rw [decodeEntry]
    rcases hf with hf | hf <;> simp [hi, hf]
  have h2 : decodeEntries (pre ++ (k, bad) :: post) = decodeEntries (pre ++ post) := by
    unfold decodeEntries
    rw [List.foldl_append, List.foldl_cons, List.foldl_append]
    congr 1
    simp [decodeStep, h1]
  refine ⟨h1, h2, ?_, ?_⟩
  · simp only [skippedCount, List.filter_append, List.filter_cons, h1, Option.isNone_none,
      List.length_append]
    simp
    omega
  · intro e he k' m hm
    unfold decodeEntries
    apply decodeFold_has
    refine Or.inr ⟨e, ?_, m, hm⟩
    rcases List.mem_append.mp he with he' | he'
    · exact List.mem_append_left _ he'
    · exact List.mem_append_right _ (List.mem_cons_of_mem _ he')

/-- Witness for C7 at a concrete sequence: the invalid entry between two
valid ones is dropped and its valid siblings are both loaded. -/
theorem c7_invalid_entry_isolation_witness :
    decodeEntry ("kbad", exSerializedBad) = none ∧
    decodeEntries [("k1", serializeModel exModel), ("kbad", exSerializedBad), ("k2", exSerializedLegacy)] =
      decodeEntries [("k1", serializeModel exModel), ("k2", exSerializedLegacy)] ∧
    JSMap.has (decodeEntries [("k1", serializeModel exModel), ("kbad", exSerializedBad), ("k2", exSerializedLegacy)]) "k2" = true := by
  have h := c7_invalid_entry_isolation [("k1", serializeModel exModel)]
    [("k2", exSerializedLegacy)] "kbad" exSerializedBad (by decide)
  refine ⟨h.1, h.2.1, ?_⟩
  exact h.2.2.2 ("k2", exSerializedLegacy) (by decide) "k2" exLegacyDecoded (by decide)

/-! ## C2 -/

/-- Decoding the persisted form of a live record gives the record back,
except that a `Downloading` status is downgraded to `Queued`. -/
theorem decodeEntry_serializeModel (k : String) (m : DownloadModel) :
    decodeEntry (k, serializeModel m) = some (k, rehydrateModel m) := by
  obtain ⟨item, su, ak, fn, du, st, ext, inew, cp⟩ := m
  rw [decodeEntry]
  cases st <;>
    simp [serializeModel, DownloadModel.make, rehydrateModel, rehydratedStatus]

/-- Folding the decoder over freshly serialized entries appends the
rehydrated records, provided the keys are fresh for the accumulator and
pairwise distinct. -/
theorem foldl_decode_serialized (l : DMap) (acc : DMap)
    (hdisj : ∀ p ∈ l, JSMap.has acc p.1 = false)
    (hnodup : JSMap.keysNodup l) :
    ((l.map fun p => (p.1, serializeModel p.2)).foldl decodeStep acc)
      = acc ++ (l.map fun p => (p.1, rehydrateModel p.2)) := by
  induction l generalizing acc with
  | nil => simp
  | cons p l ih =>
    rw [List.map_cons, List.foldl_cons]
    have hnotin : p.1 ∉ l.map Prod.fst ∧ (l.map Prod.fst).Nodup := by
      have := hnodup
      unfold JSMap.keysNodup at this
      rw [List.map_cons, List.nodup_cons] at this
      exact this
    have hstep : decodeStep acc (p.1, serializeModel p.2)
        = acc ++ [(p.1, rehydrateModel p.2)] := by
      unfold decodeStep
      rw [decodeEntry_serializeModel]
      have hfalse := hdisj p (List.mem_cons_self p l)
      simp [JSMap.set, hfalse]
    rw [hstep, ih]
    · simp
    · intro q hq
      rw [JSMap.has_append]
      have hq1 : JSMap.has acc q.1 = false := hdisj q (List.mem_cons_of_mem p hq)
      have hq2 : JSMap.has [(p.1, rehydrateModel p.2)] q.1 = false := by
        have : q.1 ≠ p.1 := by
          intro hcontra
          exact hnotin.1 (hcontra ▸ List.mem_map_of_mem Prod.fst hq)
        simp [JSMap.has, this.symm]
      simp [hq1, hq2]
    · exact hnotin.2

/-- C2 counterexample: a registry holding one record with status
`Downloading` does not round-trip to an equal collection — the record comes
back with status `Queued`. -/
theorem c2_roundtrip_counterexample :
    decodeEntries (setItemEntries { downloads := [(exModelDownloading.key, exModelDownloading)] })
      ≠ [(exModelDownloading.key, exModelDownloading)] ∧
    decodeEntries (setItemEntries { downloads := [(exModelDownloading.key, exModelDownloading)] })
      = [(exModelDownloading.key, rehydrateModel exModelDownloading)] := by
  decide

/-- C2 amended: writing the registry through the storage adapter (an ordered
sequence of `(key, record)` pairs) and decoding it back reconstructs the
collection entry for entry and in order — no entry is invalid or skipped —
with each record equal to the original except that a record persisted while
`Downloading` is reconstructed as `Queued`. -/
theorem c2_roundtrip_modulo_downgrade (s : State) (h : JSMap.keysNodup s.downloads) :
    decodeEntries (setItemEntries s) = s.downloads.map (fun p => (p.1, rehydrateModel p.2)) ∧
    (decodeEntries (setItemEntries s)).map Prod.fst = s.downloads.map Prod.fst ∧
    skippedCount (setItemEntries s) = 0 := by
  have hmain : decodeEntries (setItemEntries s)
      = s.downloads.map fun p => (p.1, rehydrateModel p.2) := by
    unfold decodeEntries setItemEntries
    rw [foldl_decode_serialized s.downloads [] (fun p _ => rfl) h]
    simp
  refine ⟨hmain, ?_, ?_⟩
  · rw [hmain, List.map_map]
    apply List.map_congr_left
    intro p _
    rfl
  · simp [skippedCount, setItemEntries, List.filter_map, Function.comp,
      decodeEntry_serializeModel]

/-- Witness for the amended C2 at a concrete registry. -/
theorem c2_roundtrip_modulo_downgrade_witness :
    decodeEntries (setItemEntries exState)
      = exState.downloads.map (fun p => (p.1, rehydrateModel p.2)) ∧
    skippedCount (setItemEntries exState) = 0 := by
  have h := c2_roundtrip_modulo_downgrade exState (by decide)
  exact ⟨h.1, h.2.2⟩

/-! ## C4 -/

/-- C4 counterexample: `deserialize` has no try/catch around `JSON.parse`,
so the non-empty unparseable input `"garbage"` makes the parse error
propagate instead of yielding the empty initial state. -/
theorem c4_unparseable_throws_counterexample :
    deserialize (some "garbage") = Except.error JsError.parseError ∧
    deserialize (some "garbage") ≠ Except.ok { state := initialState, version := none } := by
  refine ⟨rfl, ?_⟩
  intro hcontra
  rw [show deserialize (some "garbage") = Except.error JsError.parseError from rfl] at hcontra
  exact Except.noConfusion hcontra

/-- C4 amended: `deserialize` returns the empty initial state only for the
two falsy inputs `null` and the empty string; for a non-empty input that is
not parseable as JSON, `JSON.parse` throws and the exception escapes
`deserialize` uncaught. -/
theorem c4_falsy_initial_parse_error_escapes (s : String)
    (h1 : s ≠ "") (h2 : Json.parse s = none) :
    deserialize none = Except.ok { state := initialState, version := none } ∧
    deserialize (some "") = Except.ok { state := initialState, version := none } ∧
    deserialize (some s) = Except.error JsError.parseError := by
  refine ⟨rfl, rfl, ?_⟩
  simp only [deserialize, if_neg h1, h2]

/-- Witness for the amended C4 at the concrete unparseable input `"["`. -/
theorem c4_falsy_initial_parse_error_escapes_witness :
    deserialize none = Except.ok { state := initialState, version := none } ∧
    deserialize (some "") = Except.ok { state := initialState, version := none } ∧
    deserialize (some "[") = Except.error JsError.parseError :=
  c4_falsy_initial_parse_error_escapes "[" (by decide) rfl

/-! ## C10 -/

/-- C10: each mutating action only ever appends a freshly constructed map
instance to the heap — every instance that existed before the action,
including the one the previous state holds, is unchanged at its index — and
whenever the action changes the collection, `_set` installs the fresh
instance (the index just past the old heap). -/
theorem c10_copy_on_write (d : DownloadModel) (s : HeapState) :
    (∀ i, i < s.heap.length →
      (DownloadStore.addH d s).heap[i]? = s.heap[i]? ∧
      (DownloadStore.delH d s).heap[i]? = s.heap[i]? ∧
      (DownloadStore.updateH d s).heap[i]? = s.heap[i]? ∧
      (DownloadStore.resetH s).heap[i]? = s.heap[i]?) ∧
    (JSMap.has s.current d.key = false → (DownloadStore.addH d s).cur = s.heap.length) ∧
    (JSMap.has s.current d.key = true → (DownloadStore.delH d s).cur = s.heap.length) ∧
    (DownloadStore.updateH d s).cur = s.heap.length ∧
    (DownloadStore.resetH s).cur = s.heap.length := by
  refine ⟨?_, ?_, ?_, ?_, ?_⟩
  · intro i hi
    refine ⟨?_, ?_, ?_, ?_⟩ <;>
      cases hk : JSMap.has s.current d.key <;>
        simp [DownloadStore.addH, DownloadStore.delH, DownloadStore.updateH,
          DownloadStore.resetH, hk, List.getElem?_append, hi]
  · intro hk
    simp [DownloadStore.addH, hk]
  · intro hk
    simp [DownloadStore.delH, hk]
  · rfl
  · rfl

/-- Witness for C10 at a concrete heap: adding a new record and updating
leave the old instance at index 0 untouched and install fresh instances. -/
theorem c10_copy_on_write_witness :
    (DownloadStore.addH exModel2 exHeapState).heap[0]? = exHeapState.heap[0]? ∧
    (DownloadStore.addH exModel2 exHeapState).cur = exHeapState.heap.length ∧
    (DownloadStore.updateH exModel2 exHeapState).cur = exHeapState.heap.length := by
  have h := c10_copy_on_write exModel2 exHeapState
  exact ⟨(h.1 0 (by decide)).1, h.2.1 (by decide), h.2.2.2.1⟩
